import Mathlib

/-!
Shallow embedding of the masterclass_site server (src/server.js) and of the
calendar slot table of the client widget (src/public/script.js), together
with theorems settling the specified behaviour of the reminder scheduler,
the registration handler, the tracking route, the static file resolution
and the slot table.

Modelling conventions:
- JavaScript millisecond timestamps are modelled as `Int`; `Date.now()` is an
  explicit `now` argument.
- `new Date(s)` followed by `.toISOString()` is modelled by two explicit
  function arguments `parseDate : String → Option Int` (with `none` standing
  for an Invalid Date, whose `toISOString` throws a RangeError) and
  `toISO : Int → String`; both are collaborator built-ins of the JS runtime,
  not code of the repository.
- The file-backed stores are modelled by their parsed content: an
  `Option (List Registration)` respectively `Option ViewsDB`, where `none`
  stands for a file whose text does not parse as JSON (a corrupt or
  unreadable store).
- Side effects are made explicit: the result records carry the emails passed
  to `sendEmail`, the reminder jobs passed to `scheduleEmail`, and the rows
  passed to `appendToAirtable`.
-/

/-- Action taken by `scheduleEmail` (src/server.js lines 201-211): either the
send side-effect runs synchronously, or a single-shot timer is armed with the
given delay in milliseconds. -/
inductive ScheduleAction where
  | sendNow (recipient subject : String)
  | setTimeout (delayMs : Int) (recipient subject : String)
deriving DecidableEq

/-- Embedding of `scheduleEmail(eventDate, offsetMs, to, subject, html)`
(src/server.js lines 201-211): `sendTime = eventDate.getTime() + offsetMs`,
`delay = sendTime - Date.now()`; if `delay <= 0` the email is sent
immediately, otherwise `setTimeout(schedule, delay)` is armed. The html body
is not tracked. -/
def scheduleEmail (now eventTime offsetMs : Int) (recipient subject : String) : ScheduleAction :=
  if eventTime + offsetMs - now ≤ 0 then
    ScheduleAction.sendNow recipient subject
  else
    ScheduleAction.setTimeout (eventTime + offsetMs - now) recipient subject

/-- A persisted registration record (src/server.js line 288). -/
structure Registration where
  firstName : String
  lastName : String
  email : String
  session : String
deriving DecidableEq

/-- The form fields of a POST /register body after `querystring.parse`
(src/server.js lines 269-274); `none` models an absent field. -/
structure FormData where
  firstName : Option String
  lastName : Option String
  email : Option String
  session : Option String
  consent : Option String
deriving DecidableEq

/-- JavaScript truthiness of `data.consent` (src/server.js line 275):
`undefined` and the empty string are falsy, every other string is truthy. -/
def jsTruthy : Option String → Bool
  | none => false
  | some s => !(s == "")

/-- A call to `sendEmail(to, subject, html)` (src/server.js line 181); the
html body is not tracked. -/
structure Email where
  recipient : String
  subject : String
deriving DecidableEq

/-- A call to `scheduleEmail(eventDate, offsetMs, to, subject, html)` made by
the registration handler: a reminder job at a signed offset from the event. -/
structure ReminderJob where
  offsetMs : Int
  recipient : String
  subject : String
deriving DecidableEq

/-- A row passed to `appendToAirtable` (src/server.js line 294). -/
structure LedgerRow where
  prenom : String
  nom : String
  email : String
  session : String
deriving DecidableEq

/-- Terminal outcome of the POST /register handler: a 400 rejection, an
uncaught exception (RangeError from `toISOString` on an Invalid Date), or a
302 redirect. -/
inductive RegisterOutcome where
  | badRequest (message : String)
  | thrown
  | redirect (location : String)
deriving DecidableEq

/-- The outcome of one POST /register request together with all its side
effects: the registrations file content after the request, the emails sent,
the reminder jobs scheduled, and the ledger (Airtable) rows recorded. -/
structure RegisterResult where
  outcome : RegisterOutcome
  regFile : Option (List Registration)
  emails : List Email
  jobs : List ReminderJob
  ledger : List LedgerRow
deriving DecidableEq

/-- UTF-8 byte sequence of a character, used by `encodeURIComponent`. -/
def utf8Bytes (c : Char) : List Nat :=
  let n := c.toNat
  if n < 128 then [n]
  else if n < 2048 then [192 + n / 64, 128 + n % 64]
  else if n < 65536 then [224 + n / 4096, 128 + (n / 64) % 64, 128 + n % 64]
  else [240 + n / 262144, 128 + (n / 4096) % 64, 128 + (n / 64) % 64, 128 + n % 64]

/-- Uppercase hexadecimal digit. -/
def hexDigitUpper (n : Nat) : Char :=
  if n < 10 then Char.ofNat (48 + n) else Char.ofNat (55 + n)

/-- Characters left unescaped by JavaScript `encodeURIComponent`. -/
def isURIUnescaped (c : Char) : Bool :=
  (65 ≤ c.toNat && c.toNat ≤ 90) || (97 ≤ c.toNat && c.toNat ≤ 122) ||
  (48 ≤ c.toNat && c.toNat ≤ 57) ||
  c == '-' || c == '_' || c == '.' || c == '!' || c == '~' || c == '*' ||
  c == Char.ofNat 39 || c == '(' || c == ')'

/-- Model of the JavaScript built-in `encodeURIComponent`: percent-encodes
the UTF-8 bytes of every character outside the unescaped set. -/
def encodeURIComponent (s : String) : String :=
  ⟨s.data.foldr (fun c acc =>
    if isURIUnescaped c then c :: acc
    else (utf8Bytes c).foldr
      (fun b acc2 => '%' :: hexDigitUpper (b / 16) :: hexDigitUpper (b % 16) :: acc2) acc) []⟩

/-- The Location header of the redirect issued on a successful registration
(src/server.js line 398). -/
def registerLocation (firstName sessionISO : String) : String :=
  "/confirm.html?name=" ++ encodeURIComponent firstName ++ "&date=" ++
    encodeURIComponent sessionISO

/-- The 400 response body for a registration with missing fields
(src/server.js line 277). -/
def errRequiredMsg : String :=
  "Merci de remplir tous les champs requis et d’accepter la politique d’e‑mail."

/-- The fixed operator list notified of each registration
(src/server.js line 395). -/
def adminRecipients : String := "bruno.chazreaud@gmail.com, laurmerel@gmail.com"

/-- Webinar title (src/server.js line 310). -/
def webinarTitle : String := "Accueillir l’Âme de ton enfant"

/-- Subject of the immediate confirmation email (src/server.js line 312). -/
def confirmationSubject : String :=
  "✨ Ton voyage commence — Masterclass " ++ webinarTitle

/-- Subject of the -24h reminder (src/server.js line 322). -/
def dayBeforeSubject : String := "✨ C’est demain — ta Masterclass"

/-- Subject of the -5h reminder (src/server.js line 330). -/
def fiveHoursSubject : String := "✨ C’est aujourd’hui — ta Masterclass"

/-- Subject of the -1h reminder (src/server.js line 339). -/
def oneHourSubject : String :=
  "⏳ Dans 1 heure, nous ouvrons ensemble ce Portail vers l’Âme"

/-- Subject of the -30min reminder (src/server.js line 346). -/
def halfHourSubject : String :=
  "🔔 Dans 30 minutes, nous commençons notre voyage sacré"

/-- Subject of the +1h follow-up (src/server.js line 353). -/
def afterSubject : String := "💖 Merci… et un pas de plus vers toi et ton enfant"

/-- Subject of the admin notification (src/server.js line 378). -/
def adminSubject : String := "Nouvelle inscription à la masterclass"

/-- Embedding of the POST /register handler (src/server.js lines 268-399).
Fields default to the empty string (`|| ''`); if `firstName`, `email` or
`session` is empty or `consent` is falsy, the request is rejected with a 400
and no side effect (lines 275-279). Otherwise `new Date(session)` is taken;
if the session string is not a parseable date, `eventDate.toISOString()` at
line 288 throws a RangeError after the registrations file was read but before
anything is written or sent (outcome `thrown`). Otherwise the new record is
appended to the parsed registrations (a corrupt file reads as `[]`,
lines 282-287), written back, one Airtable row is recorded, the confirmation
email is sent, the five reminders are scheduled at the fixed offsets
(lines 370-376), the admin notification is sent (line 395) and a 302 redirect
is issued (lines 397-399). -/
def registerHandler (parseDate : String → Option Int) (toISO : Int → String)
    (regFile : Option (List Registration)) (data : FormData) : RegisterResult :=
  if data.firstName.getD "" = "" ∨ data.email.getD "" = "" ∨
      data.session.getD "" = "" ∨ jsTruthy data.consent = false then
    ⟨RegisterOutcome.badRequest errRequiredMsg, regFile, [], [], []⟩
  else
    match parseDate (data.session.getD "") with
    | none => ⟨RegisterOutcome.thrown, regFile, [], [], []⟩
    | some eventMs =>
      ⟨RegisterOutcome.redirect
          (registerLocation (data.firstName.getD "") (toISO eventMs)),
        some (regFile.getD [] ++
          [⟨data.firstName.getD "", data.lastName.getD "",
            data.email.getD "", toISO eventMs⟩]),
        [⟨data.email.getD "", confirmationSubject⟩,
          ⟨adminRecipients, adminSubject⟩],
        [⟨-86400000, data.email.getD "", dayBeforeSubject⟩,
          ⟨-18000000, data.email.getD "", fiveHoursSubject⟩,
          ⟨-3600000, data.email.getD "", oneHourSubject⟩,
          ⟨-1800000, data.email.getD "", halfHourSubject⟩,
          ⟨3600000, data.email.getD "", afterSubject⟩],
        [⟨data.firstName.getD "", data.lastName.getD "",
          data.email.getD "", toISO eventMs⟩]⟩

/-- One entry of the view-tracking store (src/server.js line 408). -/
structure ViewEntry where
  watched : Int
  completed : Bool
  lastPing : Option String
deriving DecidableEq

/-- The view-tracking store: a mapping of tokens to view entries, modelled as
an association list in key-creation order. -/
abbrev ViewsDB := List (String × ViewEntry)

/-- Embedding of `readViews` (src/server.js lines 38-41): a file whose text
does not parse reads as the empty object. -/
def readViews (viewsFile : Option ViewsDB) : ViewsDB := viewsFile.getD []

/-- JavaScript object update `db[token] = cur`: replaces the value at an
existing key, otherwise appends the new key. -/
def dbInsert (db : ViewsDB) (k : String) (v : ViewEntry) : ViewsDB :=
  if (db.lookup k).isSome then
    db.map (fun p => if p.1 = k then (k, v) else p)
  else
    db ++ [(k, v)]

/-- Translation of the body of the `/track` branch (src/server.js
lines 409-417): look the token up (missing tokens read as
`{watched: 0, completed: false, lastPing: null}`), raise `watched` to the
maximum of its previous value and the submitted seconds, refresh `lastPing`,
and write the store back; an empty token writes nothing. This block is
unreachable in the source: it sits inside the `POST /register` branch after
an unconditional `return` (line 401), so no request ever executes it. -/
def trackUpdate (nowISO : String) (viewsFile : Option ViewsDB)
    (token : String) (watchedSeconds : Int) : Option ViewsDB :=
  let db := readViews viewsFile
  let cur := (db.lookup token).getD ⟨0, false, none⟩
  if token = "" then viewsFile
  else some (dbInsert db token ⟨max cur.watched watchedSeconds, cur.completed, some nowISO⟩)

/-- An HTTP response: status code, body, and optional Location header. -/
structure ServerResponse where
  status : Nat
  body : String
  location : Option String
deriving DecidableEq

/-- Split a character path on the separator, keeping empty segments, as
Node's path functions see it. -/
def splitSeg : List Char → List (List Char)
  | [] => [[]]
  | c :: cs =>
    if c = '/' then [] :: splitSeg cs
    else
      match splitSeg cs with
      | [] => [[c]]
      | s :: rest => (c :: s) :: rest

/-- One step of lexical path normalization for an absolute path: empty and
single-dot segments vanish, a double-dot segment pops the previous segment
(falling off the root is absorbed), anything else is kept. -/
def normStep (acc : List (List Char)) (seg : List Char) : List (List Char) :=
  if seg = [] ∨ seg = ['.'] then acc
  else if seg = ['.', '.'] then acc.dropLast
  else acc ++ [seg]

/-- Lexical normalization of an absolute path given as segments, as performed
by Node's `path.join` after concatenation. -/
def normSegs (segs : List (List Char)) : List (List Char) :=
  segs.foldl normStep []

/-- Segment characters of the literal path component `public`. -/
def pubChars : List Char := ['p', 'u', 'b', 'l', 'i', 'c']

/-- Embedding of `path.join(__dirname, 'public', filePath)` (src/server.js
line 244): segments of the normalized concatenation
`__dirname + '/public/' + filePath`. -/
def resolveSegs (dirname filePath : List Char) : List (List Char) :=
  normSegs (splitSeg (dirname ++ '/' :: (pubChars ++ '/' :: filePath)))

/-- Segments of the public asset root `path.join(__dirname, 'public')`. -/
def publicRootSegs (dirname : List Char) : List (List Char) :=
  normSegs (splitSeg (dirname ++ '/' :: pubChars))

/-- Value of a hexadecimal digit character, if any. -/
def hexVal (c : Char) : Option Nat :=
  if 48 ≤ c.toNat ∧ c.toNat ≤ 57 then some (c.toNat - 48)
  else if 65 ≤ c.toNat ∧ c.toNat ≤ 70 then some (c.toNat - 55)
  else if 97 ≤ c.toNat ∧ c.toNat ≤ 102 then some (c.toNat - 87)
  else none

/-- Model of the JavaScript built-in `decodeURIComponent` (src/server.js
line 260) on single-byte percent escapes: a `%` followed by two hex digits
decodes to the corresponding character, everything else is kept. -/
def percentDecode : List Char → List Char
  | [] => []
  | '%' :: h :: l :: rest =>
    match hexVal h, hexVal l with
    | some a, some b => Char.ofNat (16 * a + b) :: percentDecode rest
    | _, _ => '%' :: percentDecode (h :: l :: rest)
  | c :: rest => c :: percentDecode rest

/-- Embedding of the GET fallback path computation (src/server.js
lines 436-443): `/` and the empty path serve `index.html`, a leading slash is
stripped, anything else is taken as is. -/
def staticFilePathChars (pathname : List Char) : List Char :=
  if pathname = ['/'] ∨ pathname = [] then
    ['i', 'n', 'd', 'e', 'x', '.', 'h', 't', 'm', 'l']
  else
    match pathname with
    | '/' :: rest => rest
    | _ => pathname

/-- Embedding of `serveStatic(filePath, res)` (src/server.js lines 243-255):
the file system is a mapping from resolved path segments to file contents;
a missing file yields a 404, otherwise the content is served with a 200. -/
def serveStaticFile (fileSys : List (List Char) → Option String)
    (dirname filePath : List Char) : ServerResponse :=
  match fileSys (resolveSegs dirname filePath) with
  | none => ⟨404, "Fichier non trouvé", none⟩
  | some content => ⟨200, content, none⟩

/-- HTTP request method. -/
inductive Method where
  | get
  | post
deriving DecidableEq

/-- The HTTP response of the register branch: 400 with the error body, no
response at all on an uncaught exception, or a 302 with a Location header. -/
def responseOf : RegisterOutcome → Option ServerResponse
  | RegisterOutcome.badRequest msg => some ⟨400, msg, none⟩
  | RegisterOutcome.thrown => none
  | RegisterOutcome.redirect loc => some ⟨302, "", some loc⟩

/-- The full observable result of one request: the response (none when the
handler died on an uncaught exception), both store files after the request,
and all side effects. -/
structure ServerResult where
  response : Option ServerResponse
  regFile : Option (List Registration)
  viewsFile : Option ViewsDB
  emails : List Email
  jobs : List ReminderJob
  ledger : List LedgerRow
deriving DecidableEq

/-- Embedding of the request dispatcher (src/server.js lines 258-450). The
pathname is the decoded request path (line 260). `POST /register` runs the
registration handler. The `/track`, `/track-complete` and `/admin/views`
handlers (lines 404-431) do not appear as reachable branches: in the source
they are nested inside the `POST /register` branch after its unconditional
`return` (line 401), so requests to those paths fall through. Every other GET
serves a static file (lines 434-446) and anything else hits the final 404
(lines 448-449). -/
def serverHandle (parseDate : String → Option Int) (toISO : Int → String)
    (fileSys : List (List Char) → Option String) (dirname : List Char)
    (regFile : Option (List Registration)) (viewsFile : Option ViewsDB)
    (method : Method) (rawPath : String) (data : FormData) : ServerResult :=
  if method = Method.post ∧ percentDecode rawPath.data = "/register".data then
    let r := registerHandler parseDate toISO regFile data
    ⟨responseOf r.outcome, r.regFile, viewsFile, r.emails, r.jobs, r.ledger⟩
  else if method = Method.get then
    ⟨some (serveStaticFile fileSys dirname
        (staticFilePathChars (percentDecode rawPath.data))),
      regFile, viewsFile, [], [], []⟩
  else
    ⟨some ⟨404, "Page non trouvée", none⟩, regFile, viewsFile, [], [], []⟩

/-- Day of week of a proleptic Gregorian civil date as returned by JavaScript
`Date.prototype.getDay` (0 = Sunday … 6 = Saturday), for years ≥ 1; the month
is 0-based as in `Date.prototype.getMonth`. Computed by Zeller's congruence. -/
def jsGetDay (year month0 day : Nat) : Nat :=
  let m := month0 + 1
  let mz := if m ≤ 2 then m + 12 else m
  let yz := if m ≤ 2 then year - 1 else year
  (day + 13 * (mz + 1) / 5 + yz % 100 + yz % 100 / 4 + yz / 100 / 4 + 5 * (yz / 100) + 6) % 7

/-- Monday-to-Thursday slots (src/public/script.js line 38). -/
def mondayToThursdaySlots : List String := ["15:00", "18:30", "20:30"]

/-- Friday slots (src/public/script.js line 41). -/
def fridaySlots : List String := ["09:30", "15:00", "19:30"]

/-- Standard Saturday slots (src/public/script.js line 44). -/
def saturdaySlots : List String := ["09:30", "14:00", "16:00", "18:30", "20:30"]

/-- Sunday slots (src/public/script.js line 48). -/
def sundaySlots : List String :=
  ["09:30", "10:30", "11:10", "11:30", "12:30", "14:00", "15:00", "17:09", "18:30", "20:30"]

/-- Override slots of Saturday 23 August 2025 (src/public/script.js
line 34): the Saturday slots plus the extra 22:00 slot. -/
def overrideSlots : List String :=
  ["09:30", "14:00", "16:00", "18:30", "20:30", "22:00"]

/-- Embedding of `getTimesForDate` (src/public/script.js lines 24-50): the
slot list for a civil date, keyed on the day of week, with the single
calendar-date override for 23 August 2025. -/
def getTimesForDate (year month0 day : Nat) : List String :=
  if year = 2025 ∧ month0 = 7 ∧ day = 23 ∧ jsGetDay year month0 day = 6 then
    overrideSlots
  else if 1 ≤ jsGetDay year month0 day ∧ jsGetDay year month0 day ≤ 4 then
    mondayToThursdaySlots
  else if jsGetDay year month0 day = 5 then
    fridaySlots
  else if jsGetDay year month0 day = 6 then
    saturdaySlots
  else
    sundaySlots

/-- The slot table by day of week alone, as the specification states it. -/
def slotsByDow (dow : Nat) : List String :=
  if 1 ≤ dow ∧ dow ≤ 4 then mondayToThursdaySlots
  else if dow = 5 then fridaySlots
  else if dow = 6 then saturdaySlots
  else sundaySlots

/-- C1: a reminder whose computed send time `eventTime + offset` is not after
`now` is delivered synchronously by `scheduleEmail`, with no timer, rather
than dropped. -/
theorem scheduleEmail_past_fires_immediately (now eventTime offsetMs : Int)
    (recipient subject : String) (h : eventTime + offsetMs ≤ now) :
    scheduleEmail now eventTime offsetMs recipient subject =
      ScheduleAction.sendNow recipient subject := by
  unfold scheduleEmail
  rw [if_pos (by omega)]

/-- Witness for C1 at a concrete past send time. -/
theorem scheduleEmail_past_fires_immediately_witness :
    scheduleEmail 1000 400 300 "ana@example.com" "rappel" =
      ScheduleAction.sendNow "ana@example.com" "rappel" :=
  scheduleEmail_past_fires_immediately 1000 400 300 "ana@example.com" "rappel"
    (by decide)

/-- C2: when `eventTime + offset` lies strictly after `now`, `scheduleEmail`
arms a single-shot timer with delay exactly `(eventTime + offset) - now`, so
the notification fires no earlier than `eventTime + offset` and is not sent
synchronously. -/
theorem scheduleEmail_future_exact_timer (now eventTime offsetMs : Int)
    (recipient subject : String) (h : now < eventTime + offsetMs) :
    scheduleEmail now eventTime offsetMs recipient subject =
      ScheduleAction.setTimeout (eventTime + offsetMs - now) recipient subject := by
  unfold scheduleEmail
  rw [if_neg (by omega)]

/-- Witness for C2 at a concrete future send time. -/
theorem scheduleEmail_future_exact_timer_witness :
    scheduleEmail 100 400 300 "ana@example.com" "rappel" =
      ScheduleAction.setTimeout 600 "ana@example.com" "rappel" :=
  scheduleEmail_future_exact_timer 100 400 300 "ana@example.com" "rappel"
    (by decide)

/-- C3: a POST /register body missing any of firstName, email, session or
consent is rejected with the 400 response, and nothing else happens: the
registrations file is untouched, no email is sent, no reminder is scheduled
and no ledger row is recorded. -/
theorem register_missing_field_rejected
    (parseDate : String → Option Int) (toISO : Int → String)
    (regFile : Option (List Registration)) (data : FormData)
    (h : data.firstName = none ∨ data.email = none ∨
      data.session = none ∨ data.consent = none) :
    registerHandler parseDate toISO regFile data =
      ⟨RegisterOutcome.badRequest errRequiredMsg, regFile, [], [], []⟩ := by
  unfold registerHandler
  rw [if_pos]
  rcases h with h | h | h | h <;> simp [h, jsTruthy]

/-- Witness for C3: a registration with no firstName is rejected with no side
effects. -/
theorem register_missing_field_rejected_witness :
    registerHandler (fun _ => none) (fun _ => "") (some [])
        ⟨none, some "Blanc", some "ana@example.com", some "2025-08-23T20:30", some "on"⟩ =
      ⟨RegisterOutcome.badRequest errRequiredMsg, some [], [], [], []⟩ :=
  register_missing_field_rejected _ _ _ _ (Or.inl rfl)

/-- C4: a valid registration appends exactly one record at the end of the
persisted store, and the session field of the new record is the submitted
timestamp normalized to absolute ISO-8601 form. -/
theorem register_valid_appends_normalized_entry
    (parseDate : String → Option Int) (toISO : Int → String)
    (regs : List Registration) (data : FormData) (t : Int)
    (h1 : data.firstName.getD "" ≠ "") (h2 : data.email.getD "" ≠ "")
    (h3 : data.session.getD "" ≠ "") (h4 : jsTruthy data.consent = true)
    (h5 : parseDate (data.session.getD "") = some t) :
    (registerHandler parseDate toISO (some regs) data).regFile =
        some (regs ++
          [⟨data.firstName.getD "", data.lastName.getD "",
            data.email.getD "", toISO t⟩]) ∧
      (regs ++
        [(⟨data.firstName.getD "", data.lastName.getD "",
          data.email.getD "", toISO t⟩ : Registration)]).length = regs.length + 1 := by
  have hcond : ¬(data.firstName.getD "" = "" ∨ data.email.getD "" = "" ∨
      data.session.getD "" = "" ∨ jsTruthy data.consent = false) := by
    simp [h1, h2, h3, h4]
  unfold registerHandler
  rw [if_neg hcond, h5]
  exact ⟨rfl, by simp⟩

/-- Witness for C4 at a concrete valid registration over an empty store. -/
theorem register_valid_appends_normalized_entry_witness :
    (registerHandler (fun _ => some 0) (fun _ => "1970-01-01T00:00:00.000Z")
        (some [])
        ⟨some "Ana", some "Blanc", some "ana@example.com",
          some "2025-08-23T20:30", some "on"⟩).regFile =
        some ([] ++
          [⟨"Ana", "Blanc", "ana@example.com", "1970-01-01T00:00:00.000Z"⟩]) ∧
      (([] : List Registration) ++
        [(⟨"Ana", "Blanc", "ana@example.com",
          "1970-01-01T00:00:00.000Z"⟩ : Registration)]).length =
        ([] : List Registration).length + 1 :=
  register_valid_appends_normalized_entry _ _ _ _ 0
    (by decide) (by decide) (by decide) (by decide) rfl

/-- C5: a valid registration schedules exactly one reminder job per offset in
the fixed set -24h, -5h, -1h, -30min, +1h (in milliseconds), all addressed to
the registrant, and sends exactly two immediate emails: the confirmation to
the registrant and the admin notification to the fixed operator list. -/
theorem register_valid_dispatches_reminders
    (parseDate : String → Option Int) (toISO : Int → String)
    (regFile : Option (List Registration)) (data : FormData) (t : Int)
    (h1 : data.firstName.getD "" ≠ "") (h2 : data.email.getD "" ≠ "")
    (h3 : data.session.getD "" ≠ "") (h4 : jsTruthy data.consent = true)
    (h5 : parseDate (data.session.getD "") = some t) :
    (registerHandler parseDate toISO regFile data).jobs =
        [⟨-86400000, data.email.getD "", dayBeforeSubject⟩,
          ⟨-18000000, data.email.getD "", fiveHoursSubject⟩,
          ⟨-3600000, data.email.getD "", oneHourSubject⟩,
          ⟨-1800000, data.email.getD "", halfHourSubject⟩,
          ⟨3600000, data.email.getD "", afterSubject⟩] ∧
      (registerHandler parseDate toISO regFile data).emails =
        [⟨data.email.getD "", confirmationSubject⟩,
          ⟨adminRecipients, adminSubject⟩] := by
  have hcond : ¬(data.firstName.getD "" = "" ∨ data.email.getD "" = "" ∨
      data.session.getD "" = "" ∨ jsTruthy data.consent = false) := by
    simp [h1, h2, h3, h4]
  unfold registerHandler
  rw [if_neg hcond, h5]
  exact ⟨rfl, rfl⟩

/-- Witness for C5 at a concrete valid registration. -/
theorem register_valid_dispatches_reminders_witness :
    (registerHandler (fun _ => some 0) (fun _ => "1970-01-01T00:00:00.000Z")
        (some [])
        ⟨some "Ana", some "Blanc", some "ana@example.com",
          some "2025-08-23T20:30", some "on"⟩).jobs =
        [⟨-86400000, "ana@example.com", dayBeforeSubject⟩,
          ⟨-18000000, "ana@example.com", fiveHoursSubject⟩,
          ⟨-3600000, "ana@example.com", oneHourSubject⟩,
          ⟨-1800000, "ana@example.com", halfHourSubject⟩,
          ⟨3600000, "ana@example.com", afterSubject⟩] ∧
      (registerHandler (fun _ => some 0) (fun _ => "1970-01-01T00:00:00.000Z")
        (some [])
        ⟨some "Ana", some "Blanc", some "ana@example.com",
          some "2025-08-23T20:30", some "on"⟩).emails =
        [⟨"ana@example.com", confirmationSubject⟩,
          ⟨adminRecipients, adminSubject⟩] :=
  register_valid_dispatches_reminders _ _ _ _ 0
    (by decide) (by decide) (by decide) (by decide) rfl

/-- C9: a corrupt or unreadable registrations file is read as the empty
store, the registration completes with its redirect rather than crashing,
and the write leaves the new registration as the sole entry, silently
discarding the unreadable data; a corrupt view-tracking store likewise reads
as the empty store. -/
theorem register_corrupt_store_treated_empty
    (parseDate : String → Option Int) (toISO : Int → String)
    (data : FormData) (t : Int)
    (h1 : data.firstName.getD "" ≠ "") (h2 : data.email.getD "" ≠ "")
    (h3 : data.session.getD "" ≠ "") (h4 : jsTruthy data.consent = true)
    (h5 : parseDate (data.session.getD "") = some t) :
    (registerHandler parseDate toISO none data).regFile =
        some [⟨data.firstName.getD "", data.lastName.getD "",
          data.email.getD "", toISO t⟩] ∧
      (registerHandler parseDate toISO none data).outcome =
        RegisterOutcome.redirect
          (registerLocation (data.firstName.getD "") (toISO t)) ∧
      readViews none = [] := by
  have hcond : ¬(data.firstName.getD "" = "" ∨ data.email.getD "" = "" ∨
      data.session.getD "" = "" ∨ jsTruthy data.consent = false) := by
    simp [h1, h2, h3, h4]
  unfold registerHandler
  rw [if_neg hcond, h5]
  exact ⟨by simp, rfl, rfl⟩

/-- Witness for C9 at a concrete valid registration over a corrupt store. -/
theorem register_corrupt_store_treated_empty_witness :
    (registerHandler (fun _ => some 0) (fun _ => "1970-01-01T00:00:00.000Z")
        none
        ⟨some "Ana", some "Blanc", some "ana@example.com",
          some "2025-08-23T20:30", some "on"⟩).regFile =
        some [⟨"Ana", "Blanc", "ana@example.com", "1970-01-01T00:00:00.000Z"⟩] ∧
      (registerHandler (fun _ => some 0) (fun _ => "1970-01-01T00:00:00.000Z")
        none
        ⟨some "Ana", some "Blanc", some "ana@example.com",
          some "2025-08-23T20:30", some "on"⟩).outcome =
        RegisterOutcome.redirect
          (registerLocation "Ana" "1970-01-01T00:00:00.000Z") ∧
      readViews none = [] :=
  register_corrupt_store_treated_empty _ _ _ 0
    (by decide) (by decide) (by decide) (by decide) rfl

/-- C10: validation does not check that the session field parses as a date:
when the other fields are present and the session string is non-empty but not
a parseable timestamp, validation passes and the handler then throws (the
RangeError of `toISOString` on an Invalid Date) instead of returning a
validation error, with nothing persisted and no notification sent. -/
theorem register_unparseable_session_throws
    (parseDate : String → Option Int) (toISO : Int → String)
    (regFile : Option (List Registration)) (data : FormData)
    (h1 : data.firstName.getD "" ≠ "") (h2 : data.email.getD "" ≠ "")
    (h3 : data.session.getD "" ≠ "") (h4 : jsTruthy data.consent = true)
    (h5 : parseDate (data.session.getD "") = none) :
    registerHandler parseDate toISO regFile data =
      ⟨RegisterOutcome.thrown, regFile, [], [], []⟩ := by
  have hcond : ¬(data.firstName.getD "" = "" ∨ data.email.getD "" = "" ∨
      data.session.getD "" = "" ∨ jsTruthy data.consent = false) := by
    simp [h1, h2, h3, h4]
  unfold registerHandler
  rw [if_neg hcond, h5]

/-- Witness for C10: an unparseable non-empty session string passes
validation and then throws, leaving the store untouched. -/
theorem register_unparseable_session_throws_witness :
    registerHandler (fun _ => none) (fun _ => "") (some [])
        ⟨some "Ana", some "Blanc", some "ana@example.com",
          some "pas-une-date", some "on"⟩ =
      ⟨RegisterOutcome.thrown, some [], [], [], []⟩ :=
  register_unparseable_session_throws _ _ _ _
    (by decide) (by decide) (by decide) (by decide) rfl

/-- Unfolding of `splitSeg` at a separator character. -/
theorem splitSeg_cons_sep (cs : List Char) :
    splitSeg ('/' :: cs) = [] :: splitSeg cs := by
  simp [splitSeg]

/-- Unfolding of `splitSeg` at a non-separator character. -/
theorem splitSeg_cons_other (c : Char) (cs : List Char) (h : c ≠ '/') :
    splitSeg (c :: cs) =
      match splitSeg cs with
      | [] => [[c]]
      | s :: rest => (c :: s) :: rest := by
  simp [splitSeg, h]

/-- `splitSeg` always produces at least one segment. -/
theorem splitSeg_ne_nil (a : List Char) : splitSeg a ≠ [] := by
  cases a with
  | nil => simp [splitSeg]
  | cons c cs =>
    by_cases h : c = '/'
    · subst h; rw [splitSeg_cons_sep]; simp
    · rw [splitSeg_cons_other c cs h]
      cases hs : splitSeg cs with
      | nil => simp
      | cons s rest => simp

/-- Splitting distributes over concatenation at a separator boundary. -/
theorem splitSeg_append_sep (a b : List Char) :
    splitSeg (a ++ '/' :: b) = splitSeg a ++ splitSeg b := by
  induction a with
  | nil => simp [splitSeg]
  | cons c cs ih =>
    by_cases h : c = '/'
    · subst h
      rw [List.cons_append, splitSeg_cons_sep, splitSeg_cons_sep, ih,
        List.cons_append]
    · rw [List.cons_append, splitSeg_cons_other c _ h,
        splitSeg_cons_other c cs h, ih]
      cases hs : splitSeg cs with
      | nil => exact absurd hs (splitSeg_ne_nil cs)
      | cons s rest => simp

/-- Normalization only ever removes segments from the back of the
accumulator when it meets a double-dot segment; without double-dot segments
the accumulator stays at the front of the result. -/
theorem foldl_normStep_keeps_front (segs : List (List Char))
    (acc : List (List Char)) (h : ∀ seg ∈ segs, seg ≠ ['.', '.']) :
    acc <+: segs.foldl normStep acc := by
  induction segs generalizing acc with
  | nil => exact ⟨[], List.append_nil acc⟩
  | cons s rest ih =>
    have hs : s ≠ ['.', '.'] := h s (List.mem_cons_self _ _)
    have hrest : ∀ seg ∈ rest, seg ≠ ['.', '.'] :=
      fun seg hm => h seg (List.mem_cons_of_mem _ hm)
    rw [List.foldl_cons]
    have step : acc <+: normStep acc s := by
      by_cases h1 : s = [] ∨ s = ['.']
      · simp only [normStep, if_pos h1]
        exact ⟨[], List.append_nil acc⟩
      · simp only [normStep, if_neg h1, if_neg hs]
        exact ⟨[s], rfl⟩
    exact step.trans (ih (normStep acc s) hrest)

/-- A file path without double-dot segments resolves below the public root. -/
theorem resolution_keeps_root (dirname filePath : List Char)
    (hf : ∀ seg ∈ splitSeg filePath, seg ≠ ['.', '.']) :
    publicRootSegs dirname <+: resolveSegs dirname filePath := by
  have hpub : splitSeg pubChars = [pubChars] := by decide
  unfold resolveSegs publicRootSegs normSegs
  rw [splitSeg_append_sep, splitSeg_append_sep, splitSeg_append_sep, hpub,
    ← List.append_assoc]
  simp only [List.foldl_append]
  exact foldl_normStep_keeps_front _ _ hf

/-- C6 (divergence witness): a POST /track request never reaches the tracking
logic. In the source the /track branch is nested inside the POST /register
branch after its unconditional return, so the request falls through to the
final 404, the view-tracking store is untouched and nothing is sent or
scheduled, no matter the environment or the submitted body. -/
theorem post_track_not_found_views_unchanged
    (parseDate : String → Option Int) (toISO : Int → String)
    (fileSys : List (List Char) → Option String) (dirname : List Char)
    (regFile : Option (List Registration)) (viewsFile : Option ViewsDB)
    (data : FormData) :
    serverHandle parseDate toISO fileSys dirname regFile viewsFile
        Method.post "/track" data =
      ⟨some ⟨404, "Page non trouvée", none⟩, regFile, viewsFile, [], [], []⟩ := by
  unfold serverHandle
  rw [if_neg (by decide), if_neg (by decide)]

/-- C7 counterexample: the GET request path /..%2fserver.js (which the URL
parser leaves intact, since its one segment is not a dot segment) decodes to
/../server.js, is joined and normalized under the public root, and resolves
to a file directly under the server directory, outside the public asset
root. -/
theorem static_encoded_traversal_escapes_root :
    staticFilePathChars (percentDecode "/..%2fserver.js".data) =
        "../server.js".data ∧
      resolveSegs "/srv/app".data
          (staticFilePathChars (percentDecode "/..%2fserver.js".data)) =
        ["srv".data, "app".data, "server.js".data] ∧
      ¬ publicRootSegs "/srv/app".data <+:
          resolveSegs "/srv/app".data
            (staticFilePathChars (percentDecode "/..%2fserver.js".data)) :=
  ⟨by decide, by decide, by decide⟩

/-- C7 amended: the served file is resolved by lexically joining the decoded
path onto the fixed public asset root; whenever the decoded path contains no
double-dot segment the resolved file lies within the public asset root, and
any path that does not resolve to an existing file yields the not-found
response. -/
theorem static_resolution_in_root_without_dotdot
    (dirname filePath : List Char) (fileSys : List (List Char) → Option String)
    (hf : ∀ seg ∈ splitSeg filePath, seg ≠ ['.', '.']) :
    publicRootSegs dirname <+: resolveSegs dirname filePath ∧
      (fileSys (resolveSegs dirname filePath) = none →
        serveStaticFile fileSys dirname filePath =
          ⟨404, "Fichier non trouvé", none⟩) := by
  refine ⟨resolution_keeps_root dirname filePath hf, fun hmiss => ?_⟩
  unfold serveStaticFile
  rw [hmiss]

/-- Witness for the amended C7 at a concrete dot-free path over an empty
file system. -/
theorem static_resolution_in_root_without_dotdot_witness :
    publicRootSegs "/srv/app".data <+:
        resolveSegs "/srv/app".data "index.html".data ∧
      ((fun _ => (none : Option String))
          (resolveSegs "/srv/app".data "index.html".data) = none →
        serveStaticFile (fun _ => none) "/srv/app".data "index.html".data =
          ⟨404, "Fichier non trouvé", none⟩) :=
  static_resolution_in_root_without_dotdot "/srv/app".data "index.html".data
    (fun _ => none) (by decide)

/-- C8: getTimesForDate is a pure function of the civil date and returns the
override set exactly on the designated date, Saturday 23 August 2025; every
other date gets the fixed set of its day of week, in particular every other
Saturday gets the standard Saturday set. -/
theorem getTimesForDate_override_only_designated (year month0 day : Nat) :
    getTimesForDate year month0 day =
      if year = 2025 ∧ month0 = 7 ∧ day = 23 then overrideSlots
      else slotsByDow (jsGetDay year month0 day) := by
  by_cases h : year = 2025 ∧ month0 = 7 ∧ day = 23
  · obtain ⟨h1, h2, h3⟩ := h
    subst h1; subst h2; subst h3
    decide
  · rw [if_neg h]
    unfold getTimesForDate slotsByDow
    rw [if_neg (fun hh => h ⟨hh.1, hh.2.1, hh.2.2.1⟩)]
